import Mathlib

/-!
Verification development for the GPA learning-app prototype (src/app.py).

The file shallowly embeds the analytics and item-selection core of the
application:

* the mastery estimator `compute_profile` (app.py lines 285-301) together
  with its weight table `WEIGHTS` (line 19),
* the attempt recorder `log_attempt` (lines 186-201),
* the free-text grading rule of `render_item` for `short` items
  (lines 621-627),
* the selectors `pick_global` (512-514), `pick_lf` (516-518),
  `pick_adaptive` (520-531) and `pick_practice_sequence` (454-507).

Modelling conventions: Python floats are modelled as rationals (`ℚ`); the
float literals 1.0/1.3/1.7/0.6/0.2/1e-9 of the source become the
corresponding rationals.  Python's stable `sort`/`sorted` is modelled by
`List.insertionSort` (also stable, hence extensionally the same function on
keys).  Each call of `random.random()` is modelled by reading the next
value of an explicit stream `jitter : ℕ → ℚ`, and `random.sample` is an
explicit parameter of the functions that use it.  Python dicts keyed by
`(field_id, domain_id)` are modelled as functions from the key returning
`Option`; the attempts DataFrame is a `List Attempt` of its rows.
-/

namespace GpaApp

/-- A content item as used by the selection/grading code: the dictionary
keys `id`, `field`, `domain`, `topic`, `difficulty`, `type`, `keywords`
that app.py reads.  Type-specific payload not consulted by the embedded
functions (options, answers, pairs, steps) is omitted. -/
structure Item where
  id : String
  field : String
  domain : String
  topic : String
  difficulty : ℤ
  type : String
  keywords : List String
  deriving DecidableEq, Repr

/-- One row of the `attempts` table (the columns read by the analytics
code).  `correct` is the stored integer 0/1 (app.py stores
`int(bool(correct))`). -/
structure Attempt where
  user_id : String
  item_id : String
  field_id : String
  domain_id : String
  difficulty : ℤ
  correct : ℤ
  deriving DecidableEq, Repr

/-- One value of the profile dictionary produced by `compute_profile`:
`{"accuracy": ..., "level": ..., "n": ...}`. -/
structure ProfileEntry where
  accuracy : ℚ
  level : ℤ
  n : ℕ
  deriving DecidableEq, Repr

/-- app.py line 19: `WEIGHTS = {1: 1.0, 2: 1.3, 3: 1.7}`, looked up with
`WEIGHTS.get(difficulty, 1.0)` (line 291), so any other difficulty gets
weight 1.0. -/
def WEIGHTS (d : ℤ) : ℚ :=
  if d = 1 then 1 else if d = 2 then 13/10 else if d = 3 then 17/10 else 1

/-- Row filter of `compute_profile`: the row belongs to the aggregation
key `(field_id, domain_id)` (app.py line 290). -/
def matchesKey (key : String × String) (a : Attempt) : Bool :=
  a.field_id == key.1 && a.domain_id == key.2

/-- The rows of the attempt history that fall into one aggregation key. -/
def keyRows (attempts : List Attempt) (key : String × String) : List Attempt :=
  attempts.filter (matchesKey key)

/-- Accumulator `agg[key]["w"]` of `compute_profile` (line 293): total
weight of the matching rows. -/
def weightSum (attempts : List Attempt) (key : String × String) : ℚ :=
  ((keyRows attempts key).map (fun a => WEIGHTS a.difficulty)).sum

/-- Accumulator `agg[key]["c"]` of `compute_profile` (line 294): weighted
number of correct matching rows (`w * (1.0 if int(correct) == 1 else 0.0)`). -/
def hitSum (attempts : List Attempt) (key : String × String) : ℚ :=
  ((keyRows attempts key).map
    (fun a => WEIGHTS a.difficulty * (if a.correct = 1 then 1 else 0))).sum

/-- app.py line 298: `acc = v["c"] / max(v["w"], 1e-9)`. -/
def rawAcc (attempts : List Attempt) (key : String × String) : ℚ :=
  hitSum attempts key / max (weightSum attempts key) (1/1000000000)

/-- app.py line 299: `lvl = 1 if acc < 0.45 else (2 if acc < 0.75 else 3)`. -/
def levelOf (acc : ℚ) : ℤ :=
  if acc < 45/100 then 1 else if acc < 75/100 then 2 else 3

/-- Python's `round(x, 2)` on the (rational-modelled) accuracy: round to
the nearest multiple of 1/100, ties to the even multiple. -/
def roundq2 (q : ℚ) : ℚ :=
  (((if q * 100 - ⌊q * 100⌋ < 1/2 then ⌊q * 100⌋
     else if 1/2 < q * 100 - ⌊q * 100⌋ then ⌊q * 100⌋ + 1
     else if ⌊q * 100⌋ % 2 = 0 then ⌊q * 100⌋ else ⌊q * 100⌋ + 1 : ℤ) : ℚ)) / 100

/-- app.py lines 285-301, `compute_profile`, viewed as the lookup of the
returned dictionary at one key: the dictionary holds exactly the keys with
at least one matching row (the empty-DataFrame early return at line 286 is
the special case of no rows at all), and since `+` on the accumulators is
commutative and associative, folding rows in order gives the sums below.
The value is `{"accuracy": round(acc, 2), "level": lvl, "n": int(v["n"])}`.
-/
def compute_profile (attempts : List Attempt) (key : String × String) :
    Option ProfileEntry :=
  if keyRows attempts key = [] then none
  else
    some { accuracy := roundq2 (rawAcc attempts key)
           level := levelOf (rawAcc attempts key)
           n := (keyRows attempts key).length }

/-- The default profile value used by every caller of `compute_profile`
when a key is absent, e.g. `prof.get(("GLOBAL", dom), {"level":1,
"accuracy":0.0,"n":0})` (app.py lines 699, 782, 879, 886). -/
def profileDefault : ProfileEntry := { accuracy := 0, level := 1, n := 0 }

/-- Lookup of the profile dictionary with the callers' default entry. -/
def profileLookup (attempts : List Attempt) (key : String × String) :
    ProfileEntry :=
  (compute_profile attempts key).getD profileDefault

/-- app.py lines 186-201, `log_attempt`: appends one row to the attempts
table, copying `item["field"]`, `item["domain"]`, `int(item.get("difficulty",
1))` and storing `int(bool(correct))`. -/
def log_attempt (log : List Attempt) (user_id : String) (item : Item)
    (correct : Bool) : List Attempt :=
  log ++ [{ user_id := user_id
            item_id := item.id
            field_id := item.field
            domain_id := item.domain
            difficulty := item.difficulty
            correct := if correct then 1 else 0 }]

/-- Python `s.lower()` on the character list of a string. -/
def lowerChars (s : String) : List Char :=
  s.data.map Char.toLower

/-- Python `s.strip()`: drop whitespace from both ends. -/
def stripChars (l : List Char) : List Char :=
  ((l.dropWhile Char.isWhitespace).reverse.dropWhile Char.isWhitespace).reverse

/-- Python's substring test `kw in txt` on character lists. -/
def containsSub (txt kw : List Char) : Bool :=
  decide (kw <:+: txt)

/-- app.py line 624: `hits = sum(1 for kw in kws if kw.lower() in txt)`
where `txt = (response text).lower()`. -/
def shortHits (text : String) (kws : List String) : ℕ :=
  (kws.filter (fun kw => containsSub (lowerChars text) (lowerChars kw))).length

/-- The keyword threshold `max(1, len(kws)//4)` of app.py line 625. -/
def shortThreshold (kws : List String) : ℕ :=
  max 1 (kws.length / 4)

/-- app.py lines 622-625, grading of a `short` item:
`correct = hits >= max(1, len(kws)//4) if kws else (len(txt.strip())>10)`. -/
def grade_short (text : String) (kws : List String) : Bool :=
  if kws = [] then decide (10 < (stripChars (lowerChars text)).length)
  else decide (shortThreshold kws ≤ shortHits text kws)

/-- Python `item.get("type","").lower().strip()` as a character list
(app.py lines 468, 484). -/
def typeNorm (it : Item) : List Char :=
  stripChars (lowerChars it.type)

/-- The body of the `score` closures of `pick_adaptive` (line 526-527) and
`pick_practice_sequence` (lines 471-474) without the random jitter:
`dist = abs(int(difficulty) - int(target))` plus `penalty = 0.6 if id in
seen else 0.0`. -/
def scoreItem (target : ℤ) (seen : List String) (it : Item) : ℚ :=
  ((|it.difficulty - target| : ℤ) : ℚ) + (if it.id ∈ seen then 6/10 else 0)

/-- Pair every item of a list with its full score, one fresh jitter value
`jitter i` (the model of `random.random()*0.2`, drawn once per scored
item, `i` counting draws from `i0`) added to `scoreItem`. -/
def scoredList : List Item → ℤ → List String → (ℕ → ℚ) → ℕ → List (ℚ × Item)
  | [], _, _, _, _ => []
  | it :: rest, t, seen, jitter, i =>
      (scoreItem t seen it + jitter i, it) :: scoredList rest t seen jitter (i+1)

/-- Comparison of scored pairs by the score component, the order used by
`pool.sort(key=lambda x: x[0])` (line 529) and `sorted(..., key=score)`. -/
def scoreLe : (ℚ × Item) → (ℚ × Item) → Prop := fun x y => x.1 ≤ y.1

instance : DecidableRel scoreLe :=
  fun x y => inferInstanceAs (Decidable (x.1 ≤ y.1))

instance : IsTotal (ℚ × Item) scoreLe := ⟨fun a b => le_total a.1 b.1⟩

instance : IsTrans (ℚ × Item) scoreLe := ⟨fun _ _ _ h1 h2 => le_trans h1 h2⟩

/-- Python's stable `sorted(l, key=score)` followed by discarding the keys. -/
def sortByScore (t : ℤ) (seen : List String) (jitter : ℕ → ℚ) (i0 : ℕ)
    (l : List Item) : List Item :=
  (List.insertionSort scoreLe (scoredList l t seen jitter i0)).map Prod.snd

/-- app.py line 521: `target = profile.get((field_id, "FACH"), {}).get("level", 1)`. -/
def adaptTarget (profile : String × String → Option ProfileEntry)
    (field_id : String) : ℤ :=
  ((profile (field_id, "FACH")).map ProfileEntry.level).getD 1

/-- The candidate filter of `pick_adaptive` (lines 523-525): items of the
chosen field with domain `"FACH"`. -/
def adaptCand (items : List Item) (field_id : String) : List Item :=
  items.filter (fun it => it.field == field_id && it.domain == "FACH")

/-- app.py lines 520-531, `pick_adaptive`: score every candidate by
distance-to-target plus seen-penalty plus jitter, sort ascending by score,
return the items of the first `k` pairs. -/
def pick_adaptive (items : List Item)
    (profile : String × String → Option ProfileEntry) (field_id : String)
    (seen : List String) (jitter : ℕ → ℚ) (k : ℕ) : List Item :=
  let pool := scoredList (adaptCand items field_id)
    (adaptTarget profile field_id) seen jitter 0
  ((List.insertionSort scoreLe pool).take k).map Prod.snd

/-- app.py lines 459-462: the candidate pool of `pick_practice_sequence`,
the topic-filtered field pool, falling back to the whole field pool when
the topic has no items. -/
def practicePool (items : List Item) (field_id topic : String) : List Item :=
  let p := items.filter
    (fun it => it.field == field_id && it.domain == "FACH" && it.topic == topic)
  if p = [] then
    items.filter (fun it => it.field == field_id && it.domain == "FACH")
  else p

/-- First picking loop of `pick_practice_sequence` (lines 478-487): walk
the sorted non-case items, stop at `need` picks, and skip an item whose
normalised type was already used while fewer than 4 distinct types were
seen.  `used` is the `used_types` set (kept duplicate-free by
`List.insert`). -/
def loop1 (need : ℕ) : List Item → List Item → List (List Char) → List Item
  | [], picked, _ => picked
  | it :: rest, picked, used =>
    if need ≤ picked.length then picked
    else if typeNorm it ∈ used ∧ used.length < 4 then loop1 need rest picked used
    else loop1 need rest (picked ++ [it]) (used.insert (typeNorm it))

/-- Second picking loop of `pick_practice_sequence` (lines 489-495): top
up from the sorted non-case items, skipping items already picked. -/
def loop2 (need : ℕ) : List Item → List Item → List Item
  | [], picked => picked
  | it :: rest, picked =>
    if need ≤ picked.length then picked
    else if it ∈ picked then loop2 need rest picked
    else loop2 need rest (picked ++ [it])

/-- The sort key of the no-case fallback (line 503):
`(-(int(difficulty)), score(it))`, compared lexicographically. -/
def restScored : List Item → ℤ → List String → (ℕ → ℚ) → ℕ → List ((ℤ × ℚ) × Item)
  | [], _, _, _, _ => []
  | it :: rest, t, seen, jitter, i =>
      ((-it.difficulty, scoreItem t seen it + jitter i), it)
        :: restScored rest t seen jitter (i+1)

/-- Lexicographic order on the no-case fallback keys. -/
def restLe : ((ℤ × ℚ) × Item) → ((ℤ × ℚ) × Item) → Prop :=
  fun x y => x.1.1 < y.1.1 ∨ (x.1.1 = y.1.1 ∧ x.1.2 ≤ y.1.2)

instance : DecidableRel restLe :=
  fun x y => inferInstanceAs (Decidable (x.1.1 < y.1.1 ∨ (x.1.1 = y.1.1 ∧ x.1.2 ≤ y.1.2)))

/-- app.py line 457: the seen set of `pick_practice_sequence`, the ids of
all previous attempts. -/
def practiceSeen (attempts : List Attempt) : List String :=
  attempts.map Attempt.item_id

/-- app.py lines 465-466: the clamped target level
`max(1, min(3, profile.get((field_id,"FACH"),{}).get("level",1)))`. -/
def practiceTarget (profile : String × String → Option ProfileEntry)
    (field_id : String) : ℤ :=
  max 1 (min 3 (((profile (field_id, "FACH")).map ProfileEntry.level).getD 1))

/-- app.py line 468: the case items of the pool. -/
def practiceCases (pool : List Item) : List Item :=
  pool.filter (fun it => typeNorm it == "case".data)

/-- app.py line 469: `non_cases = [it for it in pool if it not in cases]`. -/
def practiceNonCases (pool : List Item) : List Item :=
  pool.filter (fun it => decide (it ∉ practiceCases pool))

/-- app.py lines 476-495: sort the non-case items by score and run the
two picking loops. -/
def practicePicked (target : ℤ) (seen : List String) (jitter : ℕ → ℚ)
    (need : ℕ) (pool : List Item) : List Item :=
  loop2 need (sortByScore target seen jitter 0 (practiceNonCases pool))
    (loop1 need (sortByScore target seen jitter 0 (practiceNonCases pool)) [] [])

/-- app.py lines 497-503: the closing item (`last`): the best-scored case
item if any case exists, otherwise the best of the remaining pool under
the `(-difficulty, score)` key, `none` when nothing remains.  `seen2` is
the seen set after the loops added every picked id. -/
def practiceClose (target : ℤ) (seen2 : List String) (jitter : ℕ → ℚ)
    (off : ℕ) (pool picked : List Item) : Option Item :=
  if practiceCases pool = [] then
    ((List.insertionSort restLe
      (restScored (pool.filter (fun it => decide (it ∉ picked)))
        target seen2 jitter off)).map Prod.snd).head?
  else
    (sortByScore target seen2 jitter off (practiceCases pool)).head?

/-- app.py lines 454-507, `pick_practice_sequence`: empty pool gives `[]`;
otherwise pick up to `max(1, k-1)` non-case items by the two loops, then
append the closing item (when one exists) and cut to `k`.  The jitter
stream is consumed once per computed sort key: first the `non_cases` sort,
then the closing sort. -/
def pick_practice_sequence (items : List Item)
    (profile : String × String → Option ProfileEntry)
    (attempts : List Attempt) (field_id topic : String)
    (jitter : ℕ → ℚ) (k : ℕ) : List Item :=
  let pool := practicePool items field_id topic
  if pool = [] then []
  else
    let target := practiceTarget profile field_id
    let need := max 1 (k - 1)
    let picked := practicePicked target (practiceSeen attempts) jitter need pool
    match practiceClose target (practiceSeen attempts ++ picked.map Item.id)
        jitter (practiceNonCases pool).length pool picked with
    | some last => (picked.take need ++ [last]).take k
    | none => picked.take k

/-- The in-code GLOBAL diagnostic bank built by `global_items()` (app.py
lines 62-119): ids are `f"{dom}_{len(items)+1:04d}"` with a global running
count, every item has field `"GLOBAL"`, difficulty 1 and topic equal to
its domain.  Prompt/option payload is omitted; keyword lists are kept. -/
def GLOBAL_ITEMS : List Item :=
  [ { id := "SPR_0001", field := "GLOBAL", domain := "SPR", topic := "SPR",
      difficulty := 1, type := "mcq", keywords := [] },
    { id := "SPR_0002", field := "GLOBAL", domain := "SPR", topic := "SPR",
      difficulty := 1, type := "cloze", keywords := [] },
    { id := "SPR_0003", field := "GLOBAL", domain := "SPR", topic := "SPR",
      difficulty := 1, type := "short",
      keywords := ["ich","helfe","waschen","jetzt","bitte","sagen"] },
    { id := "KOG_0004", field := "GLOBAL", domain := "KOG", topic := "KOG",
      difficulty := 1, type := "order", keywords := [] },
    { id := "KOG_0005", field := "GLOBAL", domain := "KOG", topic := "KOG",
      difficulty := 1, type := "mcq", keywords := [] },
    { id := "KOG_0006", field := "GLOBAL", domain := "KOG", topic := "KOG",
      difficulty := 1, type := "short",
      keywords := ["sturz","sicherheit","zuerst","weil"] },
    { id := "META_0007", field := "GLOBAL", domain := "META", topic := "META",
      difficulty := 1, type := "mcq", keywords := [] },
    { id := "META_0008", field := "GLOBAL", domain := "META", topic := "META",
      difficulty := 1, type := "mcq", keywords := [] },
    { id := "META_0009", field := "GLOBAL", domain := "META", topic := "META",
      difficulty := 1, type := "scale", keywords := [] },
    { id := "MOT_0010", field := "GLOBAL", domain := "MOT", topic := "MOT",
      difficulty := 1, type := "scale", keywords := [] },
    { id := "MOT_0011", field := "GLOBAL", domain := "MOT", topic := "MOT",
      difficulty := 1, type := "mcq", keywords := [] },
    { id := "MOT_0012", field := "GLOBAL", domain := "MOT", topic := "MOT",
      difficulty := 1, type := "short",
      keywords := ["ich","werde","diese","woche"] } ]

/-- Abstract interface of `random.sample(l, k)` (called with `k ≤ len(l)`):
the result is `k` elements drawn at distinct positions of `l`. -/
def SampleSpec (sample : List Item → ℕ → List Item) : Prop :=
  ∀ l k, k ≤ l.length → (sample l k).Subperm l ∧ (sample l k).length = k

/-- One concrete realisation of `random.sample`: take the first `k`
elements. -/
def sampleTake : List Item → ℕ → List Item := fun l k => l.take k

/-- app.py lines 512-514, `pick_global`: uniform sample of size
`min(n, len(cand))` from the GLOBAL items of one domain. -/
def pick_global (sample : List Item → ℕ → List Item) (dom : String) (n : ℕ) :
    List Item :=
  let cand := GLOBAL_ITEMS.filter (fun it => it.domain == dom)
  sample cand (min n cand.length)

/-- app.py lines 516-518, `pick_lf`: uniform sample of size
`min(n, len(cand))` from the field's `"FACH"` items, `[]` when there are
none. -/
def pick_lf (sample : List Item → ℕ → List Item) (items : List Item)
    (field_id : String) (n : ℕ) : List Item :=
  let cand := items.filter (fun it => it.field == field_id && it.domain == "FACH")
  if cand = [] then [] else sample cand (min n cand.length)

/-! ### Concrete example histories used by scenario proofs -/

/-- A correct attempt on key `("LF2", "FACH")` at the given difficulty. -/
def attC (d : ℤ) (iid : String) : Attempt :=
  { user_id := "s1", item_id := iid, field_id := "LF2", domain_id := "FACH",
    difficulty := d, correct := 1 }

/-- An incorrect attempt on key `("LF2", "FACH")` at the given difficulty. -/
def attW (d : ℤ) (iid : String) : Attempt :=
  { user_id := "s1", item_id := iid, field_id := "LF2", domain_id := "FACH",
    difficulty := d, correct := 0 }

/-- The spec scenario history: two correct weight-1.0 attempts and one
incorrect weight-1.3 attempt on one key. -/
def ex1 : List Attempt := [attC 1 "a", attC 1 "b", attW 2 "c"]

/-- Six attempts with weight sum 6.7 and hit sum 3.0: the raw ratio
30/67 ≈ 0.4478 is below the 0.45 threshold but reports as 0.45 after
rounding. -/
def ex2 : List Attempt :=
  [attC 1 "a", attC 1 "b", attC 1 "c", attW 1 "d", attW 1 "e", attW 3 "f"]

/-- Five attempts with weight sum 6.0 and hit sum 2.7: the raw ratio is
exactly 0.45. -/
def ex3 : List Attempt :=
  [attC 3 "a", attC 1 "b", attW 2 "c", attW 1 "d", attW 1 "e"]

/-! ### Estimator lemmas -/

theorem WEIGHTS_ge_one (d : ℤ) : 1 ≤ WEIGHTS d := by
  unfold WEIGHTS
  split_ifs <;> norm_num

theorem WEIGHTS_nonneg (d : ℤ) : 0 ≤ WEIGHTS d :=
  le_trans (by norm_num) (WEIGHTS_ge_one d)

theorem weightSum_nonneg (attempts : List Attempt) (key : String × String) :
    0 ≤ weightSum attempts key := by
  refine List.sum_nonneg ?_
  intro x hx
  rcases List.mem_map.mp hx with ⟨a, _, rfl⟩
  exact WEIGHTS_nonneg a.difficulty

theorem one_le_weightSum (attempts : List Attempt) (key : String × String)
    (h : keyRows attempts key ≠ []) : 1 ≤ weightSum attempts key := by
  rcases List.exists_cons_of_ne_nil h with ⟨a, l, hal⟩
  unfold weightSum
  rw [hal]
  simp only [List.map_cons, List.sum_cons]
  have h1 : 0 ≤ (l.map (fun a => WEIGHTS a.difficulty)).sum := by
    refine List.sum_nonneg ?_
    intro x hx
    rcases List.mem_map.mp hx with ⟨b, _, rfl⟩
    exact WEIGHTS_nonneg b.difficulty
  have h2 := WEIGHTS_ge_one a.difficulty
  linarith

theorem hitSum_nonneg (attempts : List Attempt) (key : String × String) :
    0 ≤ hitSum attempts key := by
  refine List.sum_nonneg ?_
  intro x hx
  rcases List.mem_map.mp hx with ⟨a, _, rfl⟩
  have := WEIGHTS_nonneg a.difficulty
  split_ifs <;> simp <;> linarith

theorem hitSum_le_weightSum (attempts : List Attempt) (key : String × String) :
    hitSum attempts key ≤ weightSum attempts key := by
  unfold hitSum weightSum
  refine List.sum_le_sum ?_
  intro a _
  have h0 := WEIGHTS_nonneg a.difficulty
  split_ifs <;> simp <;> linarith

theorem max_weightSum_eq (attempts : List Attempt) (key : String × String)
    (h : keyRows attempts key ≠ []) :
    max (weightSum attempts key) (1/1000000000) = weightSum attempts key := by
  have := one_le_weightSum attempts key h
  exact max_eq_left (by linarith)

theorem rawAcc_eq_ratio (attempts : List Attempt) (key : String × String)
    (h : keyRows attempts key ≠ []) :
    rawAcc attempts key = hitSum attempts key / weightSum attempts key := by
  unfold rawAcc
  rw [max_weightSum_eq attempts key h]

theorem rawAcc_nonneg (attempts : List Attempt) (key : String × String) :
    0 ≤ rawAcc attempts key := by
  unfold rawAcc
  refine div_nonneg (hitSum_nonneg attempts key) ?_
  have : (0:ℚ) < 1/1000000000 := by norm_num
  exact le_trans this.le (le_max_right _ _)

theorem rawAcc_le_one (attempts : List Attempt) (key : String × String)
    (h : keyRows attempts key ≠ []) : rawAcc attempts key ≤ 1 := by
  rw [rawAcc_eq_ratio attempts key h]
  have hw := one_le_weightSum attempts key h
  rw [div_le_one (by linarith)]
  exact hitSum_le_weightSum attempts key

theorem roundq2_nonneg {q : ℚ} (h0 : 0 ≤ q) : 0 ≤ roundq2 q := by
  unfold roundq2
  have hfl : (0:ℤ) ≤ ⌊q * 100⌋ := Int.floor_nonneg.mpr (by linarith)
  have hflq : (0:ℚ) ≤ (⌊q * 100⌋ : ℚ) := by exact_mod_cast hfl
  refine div_nonneg ?_ (by norm_num)
  split_ifs <;> push_cast <;> linarith

theorem roundq2_le_one {q : ℚ} (h0 : 0 ≤ q) (h1 : q ≤ 1) : roundq2 q ≤ 1 := by
  unfold roundq2
  have hle : (⌊q * 100⌋ : ℚ) ≤ q * 100 := Int.floor_le _
  have hfl100 : ⌊q * 100⌋ ≤ 100 := by
    have : (⌊q * 100⌋ : ℚ) ≤ 100 := by linarith
    exact_mod_cast this
  rw [div_le_one (by norm_num)]
  split_ifs with hd1 hd2 hd3
  · push_cast
    exact_mod_cast (by exact_mod_cast hfl100 : (⌊q * 100⌋ : ℚ) ≤ 100)
  · have hstrict : (⌊q * 100⌋ : ℚ) < 100 := by linarith
    have : ⌊q * 100⌋ < 100 := by exact_mod_cast hstrict
    push_cast
    have : ⌊q * 100⌋ + 1 ≤ 100 := by omega
    exact_mod_cast this
  · push_cast
    exact_mod_cast (by exact_mod_cast hfl100 : (⌊q * 100⌋ : ℚ) ≤ 100)
  · have hstrict : (⌊q * 100⌋ : ℚ) < 100 := by linarith
    have : ⌊q * 100⌋ < 100 := by exact_mod_cast hstrict
    push_cast
    have : ⌊q * 100⌋ + 1 ≤ 100 := by omega
    exact_mod_cast this

theorem roundq2_eq_down (q : ℚ) (fl : ℤ) (h1 : (fl:ℚ) ≤ q * 100)
    (h2 : q * 100 < fl + 1) (h3 : q * 100 - fl < 1/2) :
    roundq2 q = (fl : ℚ) / 100 := by
  have hfl : ⌊q * 100⌋ = fl := by
    rw [Int.floor_eq_iff]
    constructor
    · exact h1
    · push_cast
      linarith
  unfold roundq2
  rw [hfl, if_pos h3]

theorem roundq2_eq_up (q : ℚ) (fl : ℤ) (h1 : (fl:ℚ) ≤ q * 100)
    (h2 : q * 100 < fl + 1) (h3 : 1/2 < q * 100 - fl) :
    roundq2 q = ((fl + 1 : ℤ) : ℚ) / 100 := by
  have hfl : ⌊q * 100⌋ = fl := by
    rw [Int.floor_eq_iff]
    constructor
    · exact h1
    · push_cast
      linarith
  unfold roundq2
  rw [hfl, if_neg (by linarith), if_pos h3]

theorem levelOf_cases (a : ℚ) : levelOf a = 1 ∨ levelOf a = 2 ∨ levelOf a = 3 := by
  unfold levelOf
  split_ifs <;> simp

theorem levelOf_mono {a b : ℚ} (h : a ≤ b) : levelOf a ≤ levelOf b := by
  unfold levelOf
  split_ifs
  all_goals try norm_num
  all_goals linarith

theorem compute_profile_eq_some (attempts : List Attempt) (key : String × String)
    (h : keyRows attempts key ≠ []) :
    compute_profile attempts key =
      some { accuracy := roundq2 (rawAcc attempts key)
             level := levelOf (rawAcc attempts key)
             n := (keyRows attempts key).length } := by
  unfold compute_profile
  rw [if_neg h]

/-! ### Evaluation of the example histories -/

theorem ex1_rows : keyRows ex1 ("LF2", "FACH") = ex1 := by
  simp [keyRows, ex1, attC, attW, matchesKey]

theorem ex1_rows_ne : keyRows ex1 ("LF2", "FACH") ≠ [] := by
  rw [ex1_rows]
  simp [ex1]

theorem ex1_ratio :
    hitSum ex1 ("LF2", "FACH") / weightSum ex1 ("LF2", "FACH") = 20/33 := by
  have hw : weightSum ex1 ("LF2", "FACH") = 33/10 := by
    rw [weightSum, ex1_rows]
    simp [ex1, attC, attW, WEIGHTS]
    norm_num
  have hh : hitSum ex1 ("LF2", "FACH") = 2 := by
    rw [hitSum, ex1_rows]
    simp [ex1, attC, attW, WEIGHTS]
    norm_num
  rw [hw, hh]
  norm_num

theorem ex1_profile :
    compute_profile ex1 ("LF2", "FACH") =
      some { accuracy := 61/100, level := 2, n := 3 } := by
  rw [compute_profile_eq_some ex1 ("LF2", "FACH") ex1_rows_ne]
  have hacc : rawAcc ex1 ("LF2", "FACH") = 20/33 := by
    rw [rawAcc_eq_ratio ex1 ("LF2", "FACH") ex1_rows_ne, ex1_ratio]
  have hr : roundq2 ((20:ℚ)/33) = 61/100 := by
    rw [roundq2_eq_up (20/33) 60 (by norm_num) (by norm_num) (by norm_num)]
    norm_num
  have hl : levelOf ((20:ℚ)/33) = 2 := by
    unfold levelOf
    rw [if_neg (by norm_num), if_pos (by norm_num)]
  rw [hacc, hr, hl, ex1_rows]
  rfl

theorem ex2_rows : keyRows ex2 ("LF2", "FACH") = ex2 := by
  simp [keyRows, ex2, attC, attW, matchesKey]

theorem ex2_rows_ne : keyRows ex2 ("LF2", "FACH") ≠ [] := by
  rw [ex2_rows]
  simp [ex2]

theorem ex2_profile :
    compute_profile ex2 ("LF2", "FACH") =
      some { accuracy := 45/100, level := 1, n := 6 } := by
  rw [compute_profile_eq_some ex2 ("LF2", "FACH") ex2_rows_ne]
  have hw : weightSum ex2 ("LF2", "FACH") = 67/10 := by
    rw [weightSum, ex2_rows]
    simp [ex2, attC, attW, WEIGHTS]
    norm_num
  have hh : hitSum ex2 ("LF2", "FACH") = 3 := by
    rw [hitSum, ex2_rows]
    simp [ex2, attC, attW, WEIGHTS]
    norm_num
  have hacc : rawAcc ex2 ("LF2", "FACH") = 30/67 := by
    rw [rawAcc_eq_ratio ex2 ("LF2", "FACH") ex2_rows_ne, hw, hh]
    norm_num
  have hr : roundq2 ((30:ℚ)/67) = 45/100 := by
    rw [roundq2_eq_up (30/67) 44 (by norm_num) (by norm_num) (by norm_num)]
    norm_num
  have hl : levelOf ((30:ℚ)/67) = 1 := by
    unfold levelOf
    rw [if_pos (by norm_num)]
  rw [hacc, hr, hl, ex2_rows]
  rfl

theorem ex3_rows : keyRows ex3 ("LF2", "FACH") = ex3 := by
  simp [keyRows, ex3, attC, attW, matchesKey]

theorem ex3_rows_ne : keyRows ex3 ("LF2", "FACH") ≠ [] := by
  rw [ex3_rows]
  simp [ex3]

theorem ex3_profile :
    compute_profile ex3 ("LF2", "FACH") =
      some { accuracy := 45/100, level := 2, n := 5 } := by
  rw [compute_profile_eq_some ex3 ("LF2", "FACH") ex3_rows_ne]
  have hw : weightSum ex3 ("LF2", "FACH") = 6 := by
    rw [weightSum, ex3_rows]
    simp [ex3, attC, attW, WEIGHTS]
    norm_num
  have hh : hitSum ex3 ("LF2", "FACH") = 27/10 := by
    rw [hitSum, ex3_rows]
    simp [ex3, attC, attW, WEIGHTS]
    norm_num
  have hacc : rawAcc ex3 ("LF2", "FACH") = 9/20 := by
    rw [rawAcc_eq_ratio ex3 ("LF2", "FACH") ex3_rows_ne, hw, hh]
    norm_num
  have hr : roundq2 ((9:ℚ)/20) = 45/100 := by
    rw [roundq2_eq_down (9/20) 45 (by norm_num) (by norm_num) (by norm_num)]
    norm_num
  have hl : levelOf ((9:ℚ)/20) = 2 := by
    unfold levelOf
    rw [if_neg (by norm_num), if_pos (by norm_num)]
  rw [hacc, hr, hl, ex3_rows]
  rfl

/-! ### Selection lemmas -/

theorem scoredList_map_snd (l : List Item) (t : ℤ) (seen : List String)
    (jitter : ℕ → ℚ) (i0 : ℕ) :
    (scoredList l t seen jitter i0).map Prod.snd = l := by
  induction l generalizing i0 with
  | nil => rfl
  | cons it rest ih =>
    simp only [scoredList, List.map_cons]
    rw [ih]

theorem scoredList_length (l : List Item) (t : ℤ) (seen : List String)
    (jitter : ℕ → ℚ) (i0 : ℕ) :
    (scoredList l t seen jitter i0).length = l.length := by
  induction l generalizing i0 with
  | nil => rfl
  | cons it rest ih =>
    simp only [scoredList, List.length_cons]
    rw [ih]

theorem fst_of_mem_scoredList {l : List Item} {t : ℤ} {seen : List String}
    {jitter : ℕ → ℚ} {i0 : ℕ} {p : ℚ × Item}
    (hp : p ∈ scoredList l t seen jitter i0) :
    ∃ i, p.1 = scoreItem t seen p.2 + jitter i ∧ p.2 ∈ l := by
  induction l generalizing i0 with
  | nil => simp [scoredList] at hp
  | cons it rest ih =>
    simp only [scoredList, List.mem_cons] at hp
    rcases hp with h | h
    · subst h
      exact ⟨i0, rfl, List.mem_cons_self _ _⟩
    · rcases ih h with ⟨i, h1, h2⟩
      exact ⟨i, h1, List.mem_cons_of_mem _ h2⟩

theorem mem_scoredList_of_mem {l : List Item} {t : ℤ} {seen : List String}
    {jitter : ℕ → ℚ} (i0 : ℕ) {a : Item} (ha : a ∈ l) :
    ∃ i, (scoreItem t seen a + jitter i, a) ∈ scoredList l t seen jitter i0 := by
  induction l generalizing i0 with
  | nil => simp at ha
  | cons it rest ih =>
    rcases List.mem_cons.mp ha with h | h
    · subst h
      exact ⟨i0, List.mem_cons_self _ _⟩
    · rcases ih (i0 + 1) h with ⟨i, hi⟩
      exact ⟨i, List.mem_cons_of_mem _ hi⟩

theorem sortByScore_perm (t : ℤ) (seen : List String) (jitter : ℕ → ℚ)
    (i0 : ℕ) (l : List Item) :
    (sortByScore t seen jitter i0 l).Perm l := by
  unfold sortByScore
  have h1 := (List.perm_insertionSort scoreLe (scoredList l t seen jitter i0)).map Prod.snd
  rw [scoredList_map_snd] at h1
  exact h1

theorem restScored_map_snd (l : List Item) (t : ℤ) (seen : List String)
    (jitter : ℕ → ℚ) (i0 : ℕ) :
    (restScored l t seen jitter i0).map Prod.snd = l := by
  induction l generalizing i0 with
  | nil => rfl
  | cons it rest ih =>
    simp only [restScored, List.map_cons]
    rw [ih]

theorem mem_take_of_sorted_lt {l : List (ℚ × Item)} {k : ℕ}
    (hs : l.Sorted scoreLe) {a b : ℚ × Item} (ha : a ∈ l)
    (hb : b ∈ List.take k l) (hlt : a.1 < b.1) : a ∈ List.take k l := by
  by_cases hin : a ∈ List.take k l
  · exact hin
  · exfalso
    have hsplit := List.take_append_drop k l
    have hdrop : a ∈ List.drop k l := by
      have hmem : a ∈ List.take k l ++ List.drop k l := by
        rw [hsplit]
        exact ha
      rcases List.mem_append.mp hmem with h | h
      · exact absurd h hin
      · exact h
    have hrel : scoreLe b a := hs.rel_of_mem_take_of_mem_drop hb hdrop
    have : b.1 ≤ a.1 := hrel
    linarith

theorem pick_adaptive_eq (items : List Item)
    (profile : String × String → Option ProfileEntry) (field_id : String)
    (seen : List String) (jitter : ℕ → ℚ) (k : ℕ) :
    pick_adaptive items profile field_id seen jitter k =
      ((List.insertionSort scoreLe
        (scoredList (adaptCand items field_id)
          (adaptTarget profile field_id) seen jitter 0)).take k).map Prod.snd := rfl

theorem scoreItem_lt_of_dist_lt {t : ℤ} {seen : List String} {a b : Item}
    (h : |a.difficulty - t| < |b.difficulty - t|) :
    scoreItem t seen a < scoreItem t seen b := by
  unfold scoreItem
  have h1 : ((|a.difficulty - t| : ℤ) : ℚ) + 1 ≤ ((|b.difficulty - t| : ℤ) : ℚ) := by
    have := Int.add_one_le_iff.mpr h
    exact_mod_cast this
  split_ifs <;> push_cast at h1 ⊢ <;> linarith

/-- Generic preference property of `pick_adaptive`: if some candidate `a`
beats every pool score that item `b` can have, then `a` enters the result
whenever `b` does. -/
theorem pick_adaptive_pref {items : List Item}
    {profile : String × String → Option ProfileEntry} {field_id : String}
    {seen : List String} {jitter : ℕ → ℚ} {k : ℕ} {a b : Item}
    (ha : a ∈ adaptCand items field_id)
    (hb : b ∈ pick_adaptive items profile field_id seen jitter k)
    (hlt : ∀ i j : ℕ,
      scoreItem (adaptTarget profile field_id) seen a + jitter i <
      scoreItem (adaptTarget profile field_id) seen b + jitter j) :
    a ∈ pick_adaptive items profile field_id seen jitter k := by
  rw [pick_adaptive_eq] at hb ⊢
  set t := adaptTarget profile field_id with ht
  set pool := scoredList (adaptCand items field_id) t seen jitter 0 with hpool
  have hsorted : (List.insertionSort scoreLe pool).Sorted scoreLe :=
    List.sorted_insertionSort scoreLe pool
  have hperm := List.perm_insertionSort scoreLe pool
  rcases List.mem_map.mp hb with ⟨pb, hpbtake, hpbsnd⟩
  have hpbpool : pb ∈ pool := (hperm.mem_iff).mp (List.mem_of_mem_take hpbtake)
  rcases fst_of_mem_scoredList hpbpool with ⟨j, hpbfst, _⟩
  rcases mem_scoredList_of_mem 0 ha with ⟨i, hpa⟩
  have hpasort : (scoreItem t seen a + jitter i, a) ∈ List.insertionSort scoreLe pool :=
    (hperm.mem_iff).mpr hpa
  have hfstlt : (scoreItem t seen a + jitter i, a).1 < pb.1 := by
    rw [hpbfst, hpbsnd]
    exact hlt i j
  have htake := mem_take_of_sorted_lt hsorted hpasort hpbtake hfstlt
  exact List.mem_map.mpr ⟨_, htake, rfl⟩

/-! ### Loop lemmas for the practice sequence -/

theorem mem_of_head?_eq_some {α : Type} {l : List α} {a : α}
    (h : l.head? = some a) : a ∈ l := by
  cases l with
  | nil => simp at h
  | cons x xs =>
    simp only [List.head?_cons, Option.some_inj] at h
    rw [← h]
    exact List.mem_cons_self _ _

theorem loop1_append_sublist (need : ℕ) (l picked : List Item)
    (used : List (List Char)) :
    ∃ s, loop1 need l picked used = picked ++ s ∧ s.Sublist l := by
  induction l generalizing picked used with
  | nil => exact ⟨[], by simp [loop1], List.nil_sublist _⟩
  | cons it rest ih =>
    simp only [loop1]
    by_cases h1 : need ≤ picked.length
    · rw [if_pos h1]
      exact ⟨[], by simp, List.nil_sublist _⟩
    · rw [if_neg h1]
      by_cases h2 : typeNorm it ∈ used ∧ used.length < 4
      · rw [if_pos h2]
        rcases ih picked used with ⟨s, hs1, hs2⟩
        exact ⟨s, hs1, hs2.cons it⟩
      · rw [if_neg h2]
        rcases ih (picked ++ [it]) (used.insert (typeNorm it)) with ⟨s, hs1, hs2⟩
        refine ⟨it :: s, ?_, hs2.cons₂ it⟩
        rw [hs1, List.append_assoc]
        rfl

theorem loop1_length_le (need : ℕ) (l picked : List Item)
    (used : List (List Char)) (hp : picked.length ≤ need) :
    (loop1 need l picked used).length ≤ need := by
  induction l generalizing picked used with
  | nil => simpa [loop1] using hp
  | cons it rest ih =>
    simp only [loop1]
    by_cases h1 : need ≤ picked.length
    · rw [if_pos h1]
      exact hp
    · rw [if_neg h1]
      by_cases h2 : typeNorm it ∈ used ∧ used.length < 4
      · rw [if_pos h2]
        exact ih picked used hp
      · rw [if_neg h2]
        refine ih (picked ++ [it]) (used.insert (typeNorm it)) ?_
        rw [List.length_append, List.length_cons, List.length_nil]
        omega

theorem loop2_props (need : ℕ) (l picked : List Item) :
    ∃ s, loop2 need l picked = picked ++ s ∧ s.Sublist l ∧
      ∀ x ∈ s, x ∉ picked := by
  induction l generalizing picked with
  | nil => exact ⟨[], by simp [loop2], List.nil_sublist _, by simp⟩
  | cons it rest ih =>
    simp only [loop2]
    by_cases h1 : need ≤ picked.length
    · rw [if_pos h1]
      exact ⟨[], by simp, List.nil_sublist _, by simp⟩
    · rw [if_neg h1]
      by_cases h2 : it ∈ picked
      · rw [if_pos h2]
        rcases ih picked with ⟨s, hs1, hs2, hs3⟩
        exact ⟨s, hs1, hs2.cons it, hs3⟩
      · rw [if_neg h2]
        rcases ih (picked ++ [it]) with ⟨s, hs1, hs2, hs3⟩
        refine ⟨it :: s, ?_, hs2.cons₂ it, ?_⟩
        · rw [hs1, List.append_assoc]
          rfl
        · intro x hx
          rcases List.mem_cons.mp hx with h | h
          · rw [h]
            exact h2
          · intro hxp
            exact hs3 x h (List.mem_append.mpr (Or.inl hxp))

theorem loop2_length_le (need : ℕ) (l picked : List Item)
    (hp : picked.length ≤ need) : (loop2 need l picked).length ≤ need := by
  induction l generalizing picked with
  | nil => simpa [loop2] using hp
  | cons it rest ih =>
    simp only [loop2]
    by_cases h1 : need ≤ picked.length
    · rw [if_pos h1]
      exact hp
    · rw [if_neg h1]
      by_cases h2 : it ∈ picked
      · rw [if_pos h2]
        exact ih picked hp
      · rw [if_neg h2]
        refine ih (picked ++ [it]) ?_
        rw [List.length_append, List.length_cons, List.length_nil]
        omega

theorem practicePool_sublist (items : List Item) (field_id topic : String) :
    (practicePool items field_id topic).Sublist items := by
  simp only [practicePool]
  split
  · exact List.filter_sublist items
  · exact List.filter_sublist items

theorem practicePicked_length_le (target : ℤ) (seen : List String)
    (jitter : ℕ → ℚ) (need : ℕ) (pool : List Item) :
    (practicePicked target seen jitter need pool).length ≤ need := by
  unfold practicePicked
  exact loop2_length_le need _ _ (loop1_length_le need _ [] [] (by simp))

theorem practicePicked_subset {target : ℤ} {seen : List String}
    {jitter : ℕ → ℚ} {need : ℕ} {pool : List Item} :
    ∀ x ∈ practicePicked target seen jitter need pool,
      x ∈ practiceNonCases pool := by
  intro x hx
  unfold practicePicked at hx
  set l := sortByScore target seen jitter 0 (practiceNonCases pool) with hl
  rcases loop1_append_sublist need l [] [] with ⟨s1, he1, hsub1⟩
  rcases loop2_props need l (loop1 need l [] []) with ⟨s2, he2, hsub2, _⟩
  rw [he2] at hx
  have hmem : x ∈ l := by
    rcases List.mem_append.mp hx with h | h
    · rw [he1] at h
      simp only [List.nil_append] at h
      exact hsub1.subset h
    · exact hsub2.subset h
  exact ((sortByScore_perm target seen jitter 0 (practiceNonCases pool)).mem_iff).mp hmem

theorem practicePicked_nodup {target : ℤ} {seen : List String}
    {jitter : ℕ → ℚ} {need : ℕ} {pool : List Item} (hpool : pool.Nodup) :
    (practicePicked target seen jitter need pool).Nodup := by
  unfold practicePicked
  set l := sortByScore target seen jitter 0 (practiceNonCases pool) with hl
  have hlnd : l.Nodup := by
    refine ((sortByScore_perm target seen jitter 0 (practiceNonCases pool)).symm).nodup ?_
    exact List.Nodup.sublist (List.filter_sublist pool) hpool
  rcases loop1_append_sublist need l [] [] with ⟨s1, he1, hsub1⟩
  have hp1 : (loop1 need l [] []).Nodup := by
    rw [he1]
    simp only [List.nil_append]
    exact List.Nodup.sublist hsub1 hlnd
  rcases loop2_props need l (loop1 need l [] []) with ⟨s2, he2, hsub2, hdis2⟩
  rw [he2]
  refine List.Nodup.append hp1 (List.Nodup.sublist hsub2 hlnd) ?_
  intro a ha1 ha2
  exact hdis2 a ha2 ha1

theorem practiceClose_mem {target : ℤ} {seen2 : List String} {jitter : ℕ → ℚ}
    {off : ℕ} {pool picked : List Item} {last : Item}
    (h : practiceClose target seen2 jitter off pool picked = some last) :
    (practiceCases pool ≠ [] ∧ last ∈ practiceCases pool)
      ∨ (practiceCases pool = [] ∧ last ∈ pool ∧ last ∉ picked) := by
  unfold practiceClose at h
  split_ifs at h with hc
  · right
    have hmem := mem_of_head?_eq_some h
    have hperm := (List.perm_insertionSort restLe
      (restScored (pool.filter (fun it => decide (it ∉ picked)))
        target seen2 jitter off)).map Prod.snd
    rw [restScored_map_snd] at hperm
    have hrest : last ∈ pool.filter (fun it => decide (it ∉ picked)) :=
      hperm.mem_iff.mp hmem
    have := List.mem_filter.mp hrest
    refine ⟨hc, this.1, ?_⟩
    have hb := this.2
    rwa [decide_eq_true_eq] at hb
  · left
    have hmem := mem_of_head?_eq_some h
    exact ⟨hc, ((sortByScore_perm target seen2 jitter off
      (practiceCases pool)).mem_iff).mp hmem⟩

theorem practiceClose_isSome_of_cases_ne {target : ℤ} {seen2 : List String}
    {jitter : ℕ → ℚ} {off : ℕ} {pool picked : List Item}
    (hc : practiceCases pool ≠ []) :
    ∃ last, practiceClose target seen2 jitter off pool picked = some last := by
  unfold practiceClose
  rw [if_neg hc]
  have hne : sortByScore target seen2 jitter off (practiceCases pool) ≠ [] := by
    intro hnil
    have hlen := (sortByScore_perm target seen2 jitter off (practiceCases pool)).length_eq
    rw [hnil] at hlen
    exact hc (List.length_eq_zero.mp hlen.symm)
  rcases List.exists_cons_of_ne_nil hne with ⟨h0, t0, heq⟩
  exact ⟨h0, by rw [heq]; rfl⟩

theorem mem_practiceNonCases {pool : List Item} {x : Item}
    (hx : x ∈ practiceNonCases pool) : x ∈ pool ∧ x ∉ practiceCases pool := by
  have := List.mem_filter.mp hx
  refine ⟨this.1, ?_⟩
  have hb := this.2
  rwa [decide_eq_true_eq] at hb

/-! ### Concrete selection inputs -/

/-- A difficulty-1 candidate item. -/
def itemX1 : Item :=
  { id := "x1", field := "LF1", domain := "FACH", topic := "T",
    difficulty := 1, type := "mcq", keywords := [] }

/-- A difficulty-2 candidate item. -/
def itemX2 : Item :=
  { id := "x2", field := "LF1", domain := "FACH", topic := "T",
    difficulty := 2, type := "cloze", keywords := [] }

/-- A two-item bank with difficulties 1 and 2. -/
def bankW : List Item := [itemX1, itemX2]

/-- The empty profile (no estimates for any key). -/
def profNone : String × String → Option ProfileEntry := fun _ => none

theorem bankW_eval :
    pick_adaptive bankW profNone "LF1" [] (fun _ => 0) 2 = [itemX1, itemX2] := by
  have ht : adaptTarget profNone "LF1" = 1 := rfl
  have hcand : adaptCand bankW "LF1" = [itemX1, itemX2] := by
    simp [adaptCand, bankW, itemX1, itemX2]
  rw [pick_adaptive_eq, ht, hcand]
  have hs1 : scoreItem 1 [] itemX1 = 0 := by
    simp [scoreItem, itemX1]
  have hs2 : scoreItem 1 [] itemX2 = 1 := by
    simp [scoreItem, itemX2]
  simp only [scoredList, hs1, hs2]
  norm_num
  rw [if_pos (show scoreLe ((0:ℚ), itemX1) ((1:ℚ), itemX2) from by norm_num [scoreLe])]
  rfl

/-! ### Claim C3 -/

/-- C3, confirmed: adaptive selection returns at most `k` items; under a
duplicate-free item-id bank it never repeats an item id in one call; and
with the jitter stream held at 0 (and one fixed seen set) any candidate at
strictly smaller difficulty-distance to the target enters the result
whenever a worse candidate does — distance 0 beats 1 and 1 beats 2,
because the 0.6 seen-penalty is smaller than a whole distance step. -/
theorem C3_adaptive_selection :
    (∀ (items : List Item) (profile : String × String → Option ProfileEntry)
        (field_id : String) (seen : List String) (jitter : ℕ → ℚ) (k : ℕ),
        (pick_adaptive items profile field_id seen jitter k).length ≤ k)
      ∧ (∀ (items : List Item) (profile : String × String → Option ProfileEntry)
          (field_id : String) (seen : List String) (jitter : ℕ → ℚ) (k : ℕ),
          (items.map Item.id).Nodup →
          ((pick_adaptive items profile field_id seen jitter k).map Item.id).Nodup)
      ∧ (∀ (items : List Item) (profile : String × String → Option ProfileEntry)
          (field_id : String) (seen : List String) (k : ℕ) (a b : Item),
          a ∈ adaptCand items field_id →
          b ∈ pick_adaptive items profile field_id seen (fun _ => 0) k →
          |a.difficulty - adaptTarget profile field_id| <
            |b.difficulty - adaptTarget profile field_id| →
          a ∈ pick_adaptive items profile field_id seen (fun _ => 0) k) := by
  refine ⟨?_, ?_, ?_⟩
  · intro items profile field_id seen jitter k
    rw [pick_adaptive_eq, List.length_map, List.length_take]
    exact min_le_left _ _
  · intro items profile field_id seen jitter k h
    rw [pick_adaptive_eq, List.map_map]
    set pool := scoredList (adaptCand items field_id)
      (adaptTarget profile field_id) seen jitter 0 with hpool
    have hcand : ((adaptCand items field_id).map Item.id).Nodup :=
      List.Nodup.sublist (List.Sublist.map Item.id (List.filter_sublist items)) h
    have hpoolids : (pool.map (Item.id ∘ Prod.snd)).Nodup := by
      rw [← List.map_map, hpool, scoredList_map_snd]
      exact hcand
    have hperm := (List.perm_insertionSort scoreLe pool).map (Item.id ∘ Prod.snd)
    have hsortids : ((List.insertionSort scoreLe pool).map (Item.id ∘ Prod.snd)).Nodup :=
      hperm.symm.nodup hpoolids
    exact List.Nodup.sublist
      (List.Sublist.map (Item.id ∘ Prod.snd) (List.take_sublist k _)) hsortids
  · intro items profile field_id seen k a b ha hb hd
    refine pick_adaptive_pref ha hb ?_
    intro i j
    have := @scoreItem_lt_of_dist_lt (adaptTarget profile field_id) seen a b hd
    simpa using this

/-- Witness for `C3_adaptive_selection` on the two-item bank `bankW`. -/
theorem C3_adaptive_selection_witness :
    ((pick_adaptive bankW profNone "LF1" [] (fun _ => 0) 2).map Item.id).Nodup
      ∧ itemX1 ∈ pick_adaptive bankW profNone "LF1" [] (fun _ => 0) 2 :=
  ⟨C3_adaptive_selection.2.1 bankW profNone "LF1" [] (fun _ => 0) 2 (by decide),
   C3_adaptive_selection.2.2 bankW profNone "LF1" [] 2 itemX1 itemX2
     (by decide) (by rw [bankW_eval]; simp) (by decide)⟩

/-! ### Claim C9 -/

/-- C9, confirmed: for every selection entry point, an empty candidate
pool for the requested scope produces the empty list (never an error):
practice-sequence selection (empty field pool implies empty topic pool as
well), per-field diagnostic selection (`pick_lf`), and adaptive selection. -/
theorem C9_empty_pool_empty_result :
    (∀ (items : List Item) (profile : String × String → Option ProfileEntry)
        (attempts : List Attempt) (field_id topic : String) (jitter : ℕ → ℚ) (k : ℕ),
        items.filter (fun it => it.field == field_id && it.domain == "FACH") = [] →
        pick_practice_sequence items profile attempts field_id topic jitter k = [])
      ∧ (∀ (sample : List Item → ℕ → List Item) (items : List Item)
          (field_id : String) (n : ℕ),
          items.filter (fun it => it.field == field_id && it.domain == "FACH") = [] →
          pick_lf sample items field_id n = [])
      ∧ (∀ (items : List Item) (profile : String × String → Option ProfileEntry)
          (field_id : String) (seen : List String) (jitter : ℕ → ℚ) (k : ℕ),
          adaptCand items field_id = [] →
          pick_adaptive items profile field_id seen jitter k = []) := by
  refine ⟨?_, ?_, ?_⟩
  · intro items profile attempts field_id topic jitter k h
    have htopic : items.filter
        (fun it => it.field == field_id && it.domain == "FACH" && it.topic == topic) = [] := by
      rw [List.filter_eq_nil_iff] at h ⊢
      intro a hamem hcontra
      refine h a hamem ?_
      simp only [Bool.and_eq_true] at hcontra ⊢
      exact hcontra.1
    have hpool : practicePool items field_id topic = [] := by
      unfold practicePool
      rw [htopic, if_pos rfl]
      exact h
    unfold pick_practice_sequence
    simp [hpool]
  · intro sample items field_id n h
    unfold pick_lf
    simp [h]
  · intro items profile field_id seen jitter k h
    rw [pick_adaptive_eq, h]
    simp [scoredList, List.insertionSort]

/-- Witness for `C9_empty_pool_empty_result` on the empty bank. -/
theorem C9_empty_pool_empty_result_witness :
    pick_practice_sequence [] profNone [] "LF1" "T" (fun _ => 0) 5 = []
      ∧ pick_lf sampleTake [] "LF1" 5 = []
      ∧ pick_adaptive [] profNone "LF1" [] (fun _ => 0) 5 = [] :=
  ⟨C9_empty_pool_empty_result.1 [] profNone [] "LF1" "T" (fun _ => 0) 5 rfl,
   C9_empty_pool_empty_result.2.1 sampleTake [] "LF1" 5 rfl,
   C9_empty_pool_empty_result.2.2 [] profNone "LF1" [] (fun _ => 0) 5 rfl⟩

/-! ### Claim C4 -/

/-- The level-3 item of the C4 counterexample bank. -/
def itemA4 : Item :=
  { id := "a1", field := "LF2", domain := "FACH", topic := "T",
    difficulty := 3, type := "mcq", keywords := [] }

/-- The level-1 item of the C4 counterexample bank. -/
def itemB4 : Item :=
  { id := "b1", field := "LF2", domain := "FACH", topic := "T",
    difficulty := 1, type := "mcq", keywords := [] }

/-- A bank with items only at levels 3 and 1 (none at level 2). -/
def bank4 : List Item := [itemA4, itemB4]

/-- A profile estimating level 2 for every key. -/
def prof4 : String × String → Option ProfileEntry :=
  fun _ => some { accuracy := 1/2, level := 2, n := 1 }

/-- A jitter stream within the allowed magnitude (first draw 0, later
draws 0.1). -/
def jitter4 : ℕ → ℚ := fun i => if i = 0 then 0 else 1/10

/-- C4, counterexample: with target level 2 and a bank holding only a
level-3 and a level-1 item (no level-2 item), adaptive selection returns
the level-3 item first under an admissible jitter draw (all jitters in
[0, 0.2)), so the declared fixed fallback priority "level 2, then 1, then
3" does not hold: levels 1 and 3 are equidistant from target 2 and the
jitter decides. -/
theorem C4_counterexample :
    pick_adaptive bank4 prof4 "LF2" [] jitter4 1 = [itemA4]
      ∧ adaptTarget prof4 "LF2" = 2
      ∧ itemB4 ∈ adaptCand bank4 "LF2"
      ∧ itemB4.difficulty = 1 ∧ itemA4.difficulty = 3
      ∧ (adaptCand bank4 "LF2").all (fun it => it.difficulty != 2) = true
      ∧ 0 ≤ jitter4 0 ∧ jitter4 0 < 2/10 ∧ 0 ≤ jitter4 1 ∧ jitter4 1 < 2/10 := by
  have ht : adaptTarget prof4 "LF2" = 2 := rfl
  have hcand : adaptCand bank4 "LF2" = [itemA4, itemB4] := by
    simp [adaptCand, bank4, itemA4, itemB4]
  have heval : pick_adaptive bank4 prof4 "LF2" [] jitter4 1 = [itemA4] := by
    rw [pick_adaptive_eq, ht, hcand]
    have hs1 : scoreItem 2 [] itemA4 + jitter4 0 = 1 := by
      simp [scoreItem, itemA4, jitter4]
    have hs2 : scoreItem 2 [] itemB4 + jitter4 1 = 11/10 := by
      simp [scoreItem, itemB4, jitter4]
      norm_num
    simp only [scoredList, hs1, hs2]
    rw [show (List.insertionSort scoreLe [((1:ℚ), itemA4), ((11:ℚ)/10, itemB4)]) =
        [((1:ℚ), itemA4), ((11:ℚ)/10, itemB4)] from by
      simp [List.insertionSort, List.orderedInsert, scoreLe]
      norm_num]
    rfl
  refine ⟨heval, ht, ?_, rfl, rfl, ?_, ?_, ?_, ?_, ?_⟩
  · rw [hcand]
    simp
  · rw [hcand]
    decide
  · norm_num [jitter4]
  · norm_num [jitter4]
  · norm_num [jitter4]
  · norm_num [jitter4]

/-- C4, amended: when the pool is non-empty the adaptive selector always
returns something (`k ≥ 1`), falling back across difficulty levels rather
than returning nothing; among fallback candidates, any item strictly
closer in difficulty to the target is preferred over any farther one for
every admissible jitter draw (jitter in [0, 0.2)) and empty seen set — so
for targets 1 and 3 the level-2 items are preferred over the far level,
while for target 2 the equidistant levels 1 and 3 are ordered by the
jitter (and seen-penalty), not by a fixed 2-1-3 priority. -/
theorem C4_level_fallback :
    (∀ (items : List Item) (profile : String × String → Option ProfileEntry)
        (field_id : String) (seen : List String) (jitter : ℕ → ℚ) (k : ℕ),
        1 ≤ k → adaptCand items field_id ≠ [] →
        pick_adaptive items profile field_id seen jitter k ≠ [])
      ∧ (∀ (items : List Item) (profile : String × String → Option ProfileEntry)
          (field_id : String) (jitter : ℕ → ℚ) (k : ℕ) (a b : Item),
          (∀ i, 0 ≤ jitter i ∧ jitter i < 2/10) →
          a ∈ adaptCand items field_id →
          b ∈ pick_adaptive items profile field_id [] jitter k →
          |a.difficulty - adaptTarget profile field_id| <
            |b.difficulty - adaptTarget profile field_id| →
          a ∈ pick_adaptive items profile field_id [] jitter k) := by
  constructor
  · intro items profile field_id seen jitter k hk hne
    have hlen : (pick_adaptive items profile field_id seen jitter k).length =
        min k (adaptCand items field_id).length := by
      rw [pick_adaptive_eq, List.length_map, List.length_take,
        (List.perm_insertionSort scoreLe _).length_eq, scoredList_length]
    have hpos : 0 < (adaptCand items field_id).length := List.length_pos.mpr hne
    have : 0 < (pick_adaptive items profile field_id seen jitter k).length := by
      rw [hlen]
      exact lt_min (by omega) hpos
    exact List.length_pos.mp this
  · intro items profile field_id jitter k a b hj ha hb hd
    refine pick_adaptive_pref ha hb ?_
    intro i j
    set t := adaptTarget profile field_id
    have h1 : ((|a.difficulty - t| : ℤ) : ℚ) + 1 ≤ ((|b.difficulty - t| : ℤ) : ℚ) := by
      have := Int.add_one_le_iff.mpr hd
      exact_mod_cast this
    have h2 := (hj i).2
    have h3 := (hj j).1
    unfold scoreItem
    rw [if_neg (List.not_mem_nil a.id), if_neg (List.not_mem_nil b.id)]
    linarith

/-- Witness for `C4_level_fallback` on the two-item bank `bankW`. -/
theorem C4_level_fallback_witness :
    pick_adaptive bankW profNone "LF1" [] (fun _ => 0) 2 ≠ []
      ∧ itemX1 ∈ pick_adaptive bankW profNone "LF1" [] (fun _ => 0) 2 :=
  ⟨C4_level_fallback.1 bankW profNone "LF1" [] (fun _ => 0) 2 (by norm_num) (by decide),
   C4_level_fallback.2 bankW profNone "LF1" (fun _ => 0) 2 itemX1 itemX2
     (fun i => ⟨le_refl 0, by norm_num⟩) (by decide) (by rw [bankW_eval]; simp)
     (by decide)⟩

/-! ### Claim C1 -/

/-- C1, counterexample: on the spec's own scenario (two correct weight-1.0
attempts, one incorrect weight-1.3 attempt) the estimator's reported
accuracy is 0.61, the two-decimal rounding of the weighted ratio, and not
the ratio 20/33 ≈ 0.606 itself as the claim states. -/
theorem C1_counterexample :
    compute_profile ex1 ("LF2", "FACH") =
        some { accuracy := 61/100, level := 2, n := 3 }
      ∧ hitSum ex1 ("LF2", "FACH") / weightSum ex1 ("LF2", "FACH") = 20/33
      ∧ ((61:ℚ)/100) ≠ 20/33 := by
  refine ⟨ex1_profile, ex1_ratio, by norm_num⟩

/-- C1, amended: for every key with at least one matching attempt, the
reported accuracy is `round(·, 2)` of (sum of weight×correctness)/(sum of
weight) with the weight table 1→1.0, 2→1.3, 3→1.7, and the level is
derived from the unrounded ratio; the scenario history yields ratio 20/33
≈ 0.606, reported accuracy 0.61 and level 2. -/
theorem C1_weighted_accuracy :
    (∀ (attempts : List Attempt) (key : String × String),
        keyRows attempts key ≠ [] →
        compute_profile attempts key =
          some { accuracy :=
                   roundq2 (hitSum attempts key / weightSum attempts key)
                 level := levelOf (hitSum attempts key / weightSum attempts key)
                 n := (keyRows attempts key).length })
      ∧ compute_profile ex1 ("LF2", "FACH") =
          some { accuracy := 61/100, level := 2, n := 3 }
      ∧ hitSum ex1 ("LF2", "FACH") / weightSum ex1 ("LF2", "FACH") = 20/33 := by
  refine ⟨?_, ex1_profile, ex1_ratio⟩
  intro attempts key h
  rw [compute_profile_eq_some attempts key h, rawAcc_eq_ratio attempts key h]

/-- Witness for `C1_weighted_accuracy` at the concrete history `ex1`. -/
theorem C1_weighted_accuracy_witness :
    compute_profile ex1 ("LF2", "FACH") =
      some { accuracy := roundq2 (hitSum ex1 ("LF2", "FACH") / weightSum ex1 ("LF2", "FACH"))
             level := levelOf (hitSum ex1 ("LF2", "FACH") / weightSum ex1 ("LF2", "FACH"))
             n := (keyRows ex1 ("LF2", "FACH")).length } :=
  C1_weighted_accuracy.1 ex1 ("LF2", "FACH") ex1_rows_ne

/-! ### Claim C2 -/

/-- C2, counterexample: two histories whose reported accuracy is exactly
0.45 but whose levels differ (1 and 2): the boundary-exact threshold
"accuracy exactly 0.45 gives level 2" fails for the reported (rounded)
accuracy, which does not even determine the level. -/
theorem C2_counterexample :
    compute_profile ex2 ("LF2", "FACH") =
        some { accuracy := 45/100, level := 1, n := 6 }
      ∧ compute_profile ex3 ("LF2", "FACH") =
        some { accuracy := 45/100, level := 2, n := 5 } :=
  ⟨ex2_profile, ex3_profile⟩

/-- C2, amended: the reported accuracy always lies in [0,1] and the level
is always in {1,2,3}; the level is the threshold function `levelOf` of the
unrounded weighted ratio, and that function is monotone with boundary-exact
thresholds (ratio 0.45 → level 2, ratio 0.75 → level 3).  The thresholds
apply to the unrounded ratio, not to the reported two-decimal accuracy. -/
theorem C2_bounds_and_thresholds :
    (∀ (attempts : List Attempt) (key : String × String) (e : ProfileEntry),
        compute_profile attempts key = some e →
        0 ≤ e.accuracy ∧ e.accuracy ≤ 1
          ∧ (e.level = 1 ∨ e.level = 2 ∨ e.level = 3)
          ∧ e.level = levelOf (rawAcc attempts key))
      ∧ (∀ a b : ℚ, a ≤ b → levelOf a ≤ levelOf b)
      ∧ (∀ a : ℚ, a < 45/100 → levelOf a = 1)
      ∧ (∀ a : ℚ, 45/100 ≤ a → a < 75/100 → levelOf a = 2)
      ∧ (∀ a : ℚ, 75/100 ≤ a → levelOf a = 3)
      ∧ levelOf (45/100) = 2 ∧ levelOf (75/100) = 3 := by
  refine ⟨?_, ?_, ?_, ?_, ?_, ?_, ?_⟩
  · intro attempts key e he
    by_cases hr : keyRows attempts key = []
    · unfold compute_profile at he
      rw [if_pos hr] at he
      exact absurd he (by simp)
    · rw [compute_profile_eq_some attempts key hr] at he
      have he' := (Option.some_inj.mp he).symm
      subst he'
      refine ⟨roundq2_nonneg (rawAcc_nonneg attempts key),
        roundq2_le_one (rawAcc_nonneg attempts key) (rawAcc_le_one attempts key hr),
        levelOf_cases (rawAcc attempts key), rfl⟩
  · intro a b h
    exact levelOf_mono h
  · intro a h
    unfold levelOf
    rw [if_pos h]
  · intro a h1 h2
    unfold levelOf
    rw [if_neg (by linarith), if_pos h2]
  · intro a h
    unfold levelOf
    rw [if_neg (by linarith), if_neg (by linarith)]
  · unfold levelOf
    rw [if_neg (by norm_num), if_pos (by norm_num)]
  · unfold levelOf
    rw [if_neg (by norm_num), if_neg (by norm_num)]

/-- Witness for `C2_bounds_and_thresholds` at the concrete history `ex1`. -/
theorem C2_bounds_and_thresholds_witness :
    0 ≤ ((61:ℚ)/100) ∧ ((61:ℚ)/100) ≤ 1
      ∧ ((2:ℤ) = 1 ∨ (2:ℤ) = 2 ∨ (2:ℤ) = 3)
      ∧ (2:ℤ) = levelOf (rawAcc ex1 ("LF2", "FACH")) :=
  C2_bounds_and_thresholds.1 ex1 ("LF2", "FACH")
    { accuracy := 61/100, level := 2, n := 3 } ex1_profile

/-! ### Claim C10 -/

/-- The non-case item of the C10 bank. -/
def itemNC : Item :=
  { id := "n1", field := "LF2", domain := "FACH", topic := "T",
    difficulty := 1, type := "mcq", keywords := [] }

/-- The case item of the C10 bank. -/
def itemC : Item :=
  { id := "c1", field := "LF2", domain := "FACH", topic := "T",
    difficulty := 1, type := "case", keywords := [] }

/-- A pool holding one non-case and one case item. -/
def bank10 : List Item := [itemNC, itemC]

/-- C10, counterexample: at `k = 1` with a pool holding a case item and a
non-case item, the returned sequence is the single non-case item — the
closing case item is appended after slot `need = max(1, k-1) = 1` is
already filled and then cut off by the final `[:k]`, so the last element
is not a case item. -/
theorem C10_counterexample :
    pick_practice_sequence bank10 profNone [] "LF2" "T" (fun _ => 0) 1 = [itemNC]
      ∧ itemC ∈ practicePool bank10 "LF2" "T"
      ∧ typeNorm itemC = "case".data
      ∧ (pick_practice_sequence bank10 profNone [] "LF2" "T"
          (fun _ => 0) 1).getLast? = some itemNC
      ∧ typeNorm itemNC ≠ "case".data := by
  decide

/-- C10, amended: for every bank, profile, history and requested count,
`pick_practice_sequence` returns at most `k` items, with no item repeated
when the bank is duplicate-free; and for `k ≥ 2` (rather than `k ≥ 1`),
whenever the candidate pool contains a "case"-type item the last element
of the returned sequence is a "case"-type item.  At `k = 1` the single
slot is taken by the best non-case pick and the closing case item is cut
off. -/
theorem C10_practice_sequence :
    (∀ (items : List Item) (profile : String × String → Option ProfileEntry)
        (attempts : List Attempt) (field_id topic : String)
        (jitter : ℕ → ℚ) (k : ℕ),
        (pick_practice_sequence items profile attempts field_id topic jitter k).length ≤ k)
      ∧ (∀ (items : List Item) (profile : String × String → Option ProfileEntry)
          (attempts : List Attempt) (field_id topic : String)
          (jitter : ℕ → ℚ) (k : ℕ),
          items.Nodup →
          (pick_practice_sequence items profile attempts field_id topic jitter k).Nodup)
      ∧ (∀ (items : List Item) (profile : String × String → Option ProfileEntry)
          (attempts : List Attempt) (field_id topic : String)
          (jitter : ℕ → ℚ) (k : ℕ),
          2 ≤ k →
          (∃ it ∈ practicePool items field_id topic, typeNorm it = "case".data) →
          ∃ last,
            (pick_practice_sequence items profile attempts field_id topic
              jitter k).getLast? = some last
              ∧ typeNorm last = "case".data) := by
  refine ⟨?_, ?_, ?_⟩
  · intro items profile attempts field_id topic jitter k
    simp only [pick_practice_sequence]
    split_ifs with h1
    · simp
    · split
      · rw [List.length_take]
        exact min_le_left _ _
      · rw [List.length_take]
        exact min_le_left _ _
  · intro items profile attempts field_id topic jitter k hnd
    have hpoolnd : (practicePool items field_id topic).Nodup :=
      List.Nodup.sublist (practicePool_sublist items field_id topic) hnd
    have hpicknd := @practicePicked_nodup (practiceTarget profile field_id)
      (practiceSeen attempts) jitter (max 1 (k - 1))
      (practicePool items field_id topic) hpoolnd
    simp only [pick_practice_sequence]
    split_ifs with h1
    · exact List.nodup_nil
    · split
      next last heq =>
        have hlastnot : last ∉ practicePicked (practiceTarget profile field_id)
            (practiceSeen attempts) jitter (max 1 (k - 1))
            (practicePool items field_id topic) := by
          rcases practiceClose_mem heq with ⟨_, hmem⟩ | ⟨_, _, hnot⟩
          · intro hin
            have hnc := practicePicked_subset last hin
            exact (mem_practiceNonCases hnc).2 hmem
          · exact hnot
        refine List.Nodup.sublist (List.take_sublist k _) ?_
        refine List.Nodup.append
          (List.Nodup.sublist (List.take_sublist _ _) hpicknd)
          (List.nodup_singleton last) ?_
        intro a ha hb
        rw [List.mem_singleton] at hb
        subst hb
        exact hlastnot (List.mem_of_mem_take ha)
      next heq =>
        exact List.Nodup.sublist (List.take_sublist k _) hpicknd
  · intro items profile attempts field_id topic jitter k hk hex
    rcases hex with ⟨c, hcpool, hctype⟩
    have hpoolne : practicePool items field_id topic ≠ [] :=
      List.ne_nil_of_mem hcpool
    have hcmem : c ∈ practiceCases (practicePool items field_id topic) :=
      List.mem_filter.mpr ⟨hcpool, by rw [beq_iff_eq]; exact hctype⟩
    have hcasesne : practiceCases (practicePool items field_id topic) ≠ [] :=
      List.ne_nil_of_mem hcmem
    simp only [pick_practice_sequence]
    rw [if_neg hpoolne]
    set pool := practicePool items field_id topic with hpooldef
    set target := practiceTarget profile field_id with htardef
    set need := max 1 (k - 1) with hneeddef
    set picked := practicePicked target (practiceSeen attempts) jitter need pool
      with hpickeddef
    set seen2 := practiceSeen attempts ++ picked.map Item.id with hseen2def
    set off := (practiceNonCases pool).length with hoffdef
    obtain ⟨last, hclose⟩ :=
      @practiceClose_isSome_of_cases_ne target seen2 jitter off pool picked hcasesne
    rw [hclose]
    have hplen : picked.length ≤ need := by
      rw [hpickeddef]
      exact practicePicked_length_le target (practiceSeen attempts) jitter need pool
    have htake1 : picked.take need = picked := List.take_of_length_le hplen
    have hlen2 : (picked.take need ++ [last]).length ≤ k := by
      rw [htake1, List.length_append, List.length_cons, List.length_nil]
      have hneedk : need = k - 1 := by
        rw [hneeddef]
        omega
      omega
    refine ⟨last, ?_, ?_⟩
    · show (List.take k (List.take need picked ++ [last])).getLast? = some last
      rw [List.take_of_length_le hlen2, htake1, List.getLast?_concat]
    · rcases practiceClose_mem hclose with ⟨_, hmem⟩ | ⟨hcnil, _, _⟩
      · have := List.mem_filter.mp hmem
        have hb := this.2
        rwa [beq_iff_eq] at hb
      · exact absurd hcnil hcasesne

/-- Witness for `C10_practice_sequence` on the two-item pool `bank10` at
`k = 2`. -/
theorem C10_practice_sequence_witness :
    (pick_practice_sequence bank10 profNone [] "LF2" "T" (fun _ => 0) 2).Nodup
      ∧ ∃ last,
          (pick_practice_sequence bank10 profNone [] "LF2" "T"
            (fun _ => 0) 2).getLast? = some last
            ∧ typeNorm last = "case".data :=
  ⟨C10_practice_sequence.2.1 bank10 profNone [] "LF2" "T" (fun _ => 0) 2 (by decide),
   C10_practice_sequence.2.2 bank10 profNone [] "LF2" "T" (fun _ => 0) 2
     (by norm_num) ⟨itemC, by decide, by decide⟩⟩

/-! ### Claim C8 -/

/-- C8, confirmed: with a non-empty keyword list the short answer is
correct iff the number of keywords contained case-insensitively as
substrings of the response is at least max(1, ⌊len(keywords)/4⌋); with no
keywords a minimum stripped length over 10 characters is required instead;
and the scenario answer "Ich helfe beim Waschen" scores 3 hits against
threshold 1 and is marked correct. -/
theorem C8_short_answer_grading :
    (∀ (text : String) (kws : List String), kws ≠ [] →
        (grade_short text kws = true ↔ shortThreshold kws ≤ shortHits text kws))
      ∧ (∀ text : String,
          grade_short text [] = true ↔ 10 < (stripChars (lowerChars text)).length)
      ∧ grade_short "Ich helfe beim Waschen" ["ich","helfe","waschen","jetzt"] = true
      ∧ shortHits "Ich helfe beim Waschen" ["ich","helfe","waschen","jetzt"] = 3
      ∧ shortThreshold ["ich","helfe","waschen","jetzt"] = 1 := by
  refine ⟨?_, ?_, ?_, ?_, ?_⟩
  · intro text kws h
    unfold grade_short
    rw [if_neg h]
    simp
  · intro text
    unfold grade_short
    rw [if_pos rfl]
    simp
  · decide
  · decide
  · decide

/-- Witness for `C8_short_answer_grading` on the scenario input. -/
theorem C8_short_answer_grading_witness :
    grade_short "Ich helfe beim Waschen" ["ich","helfe","waschen","jetzt"] = true
      ↔ shortThreshold ["ich","helfe","waschen","jetzt"] ≤
          shortHits "Ich helfe beim Waschen" ["ich","helfe","waschen","jetzt"] :=
  C8_short_answer_grading.1 "Ich helfe beim Waschen"
    ["ich","helfe","waschen","jetzt"] (by decide)

/-! ### Claim C5 -/

/-- An item of the C5 bank in skill area FACH. -/
def itemF5 : Item :=
  { id := "f5", field := "LF2", domain := "FACH", topic := "T",
    difficulty := 1, type := "mcq", keywords := [] }

/-- An item of the C5 bank in skill area SPR (same field and topic). -/
def itemS5 : Item :=
  { id := "s5", field := "LF2", domain := "SPR", topic := "T",
    difficulty := 1, type := "mcq", keywords := [] }

/-- A bank whose field LF2 has one item in each of two skill areas. -/
def bank5 : List Item := [itemF5, itemS5]

/-- C5, counterexample: the per-field diagnostic selector `pick_lf` only
draws from the FACH skill area: on a bank with one FACH and one SPR item
for the field it returns a single FACH item under a valid sample draw,
although the requested count 2 would allow one item per skill area — there
is no stratified sample across skill areas and no topping-up. -/
theorem C5_counterexample :
    pick_lf sampleTake bank5 "LF2" 2 = [itemF5]
      ∧ itemS5 ∈ bank5 ∧ itemS5.domain = "SPR"
      ∧ (pick_lf sampleTake bank5 "LF2" 2).all (fun it => it.domain != "SPR") = true
      ∧ (pick_lf sampleTake bank5 "LF2" 2).length = 1 := by
  refine ⟨by decide, by decide, rfl, by decide, by decide⟩

/-- `sampleTake` satisfies the `random.sample` interface. -/
theorem sampleTake_spec : SampleSpec sampleTake := by
  intro l k hk
  constructor
  · exact (List.take_sublist k l).subperm
  · rw [sampleTake, List.length_take]
    omega

/-- C5, amended: diagnostic selection ignores the target level (the
candidate test looks only at field and skill area, never at difficulty)
but draws a plain uniform sample within a single skill area per call:
`pick_lf` samples min(n, |cand|) items from the field's FACH items only,
and `pick_global` samples from the single given GLOBAL skill area; there
is no stratified sample across areas and no topping-up from the topic
pool. -/
theorem C5_diagnostic_sampling :
    (∀ (sample : List Item → ℕ → List Item) (items : List Item)
        (field_id : String) (n : ℕ), SampleSpec sample →
        (∀ it ∈ pick_lf sample items field_id n,
            it ∈ items ∧ it.field = field_id ∧ it.domain = "FACH")
          ∧ (pick_lf sample items field_id n).length =
              min n (items.filter
                (fun it => it.field == field_id && it.domain == "FACH")).length)
      ∧ (∀ (items : List Item) (field_id : String) (it : Item),
          it ∈ items.filter (fun it => it.field == field_id && it.domain == "FACH")
            ↔ it ∈ items ∧ it.field = field_id ∧ it.domain = "FACH")
      ∧ (∀ (sample : List Item → ℕ → List Item) (dom : String) (n : ℕ),
          SampleSpec sample →
          ∀ it ∈ pick_global sample dom n, it ∈ GLOBAL_ITEMS ∧ it.domain = dom) := by
  have hfil : ∀ (items : List Item) (field_id : String) (it : Item),
      it ∈ items.filter (fun it => it.field == field_id && it.domain == "FACH")
        ↔ it ∈ items ∧ it.field = field_id ∧ it.domain = "FACH" := by
    intro items field_id it
    rw [List.mem_filter]
    simp [Bool.and_eq_true, beq_iff_eq, and_assoc]
  refine ⟨?_, hfil, ?_⟩
  · intro sample items field_id n hs
    unfold pick_lf
    by_cases hc : items.filter (fun it => it.field == field_id && it.domain == "FACH") = []
    · rw [if_pos hc]
      constructor
      · intro it hit
        simp at hit
      · rw [hc]
        simp
    · rw [if_neg hc]
      have hmin : min n (items.filter
          (fun it => it.field == field_id && it.domain == "FACH")).length ≤
          (items.filter (fun it => it.field == field_id && it.domain == "FACH")).length :=
        min_le_right _ _
      have hspec := hs (items.filter (fun it => it.field == field_id && it.domain == "FACH"))
        (min n (items.filter (fun it => it.field == field_id && it.domain == "FACH")).length)
        hmin
      constructor
      · intro it hit
        have hmem : it ∈ items.filter
            (fun it => it.field == field_id && it.domain == "FACH") :=
          hspec.1.subset hit
        exact (hfil items field_id it).mp hmem
      · exact hspec.2
  · intro sample dom n hs it hit
    unfold pick_global at hit
    have hmin : min n (GLOBAL_ITEMS.filter (fun it => it.domain == dom)).length ≤
        (GLOBAL_ITEMS.filter (fun it => it.domain == dom)).length := min_le_right _ _
    have hspec := hs (GLOBAL_ITEMS.filter (fun it => it.domain == dom))
      (min n (GLOBAL_ITEMS.filter (fun it => it.domain == dom)).length) hmin
    have hmem : it ∈ GLOBAL_ITEMS.filter (fun it => it.domain == dom) :=
      hspec.1.subset hit
    have := List.mem_filter.mp hmem
    refine ⟨this.1, ?_⟩
    have hb := this.2
    simpa [beq_iff_eq] using hb

/-- Witness for `C5_diagnostic_sampling` with the take-realisation of
`random.sample` on the two-area bank. -/
theorem C5_diagnostic_sampling_witness :
    (pick_lf sampleTake bank5 "LF2" 2).length =
      min 2 (bank5.filter (fun it => it.field == "LF2" && it.domain == "FACH")).length :=
  (C5_diagnostic_sampling.1 sampleTake bank5 "LF2" 2 sampleTake_spec).2

/-! ### Claim C6 -/

/-- C6, confirmed: an empty history produces the empty profile dictionary,
every caller's lookup with the default entry yields accuracy 0.0, level 1,
n = 0, and the accuracy divisor `max(w, 1e-9)` is strictly positive on
every input, so division by zero never occurs. -/
theorem C6_empty_history_default :
    (∀ key : String × String, compute_profile ([] : List Attempt) key = none)
      ∧ (∀ key : String × String, profileLookup [] key = profileDefault)
      ∧ profileDefault = { accuracy := 0, level := 1, n := 0 }
      ∧ (∀ (attempts : List Attempt) (key : String × String),
          0 < max (weightSum attempts key) (1/1000000000)) := by
  refine ⟨?_, ?_, rfl, ?_⟩
  · intro key
    unfold compute_profile
    simp [keyRows]
  · intro key
    unfold profileLookup compute_profile
    simp [keyRows]
  · intro attempts key
    have : (0:ℚ) < 1/1000000000 := by norm_num
    exact lt_of_lt_of_le this (le_max_right _ _)

/-! ### Claim C7 -/

/-- C7, confirmed: recording a single correct difficulty-1 attempt on an
empty history and estimating the resulting history yields accuracy 1.0,
level 3, n = 1 for the attempt's key, for any student, item id, field,
domain and topic. -/
theorem C7_record_then_estimate :
    ∀ uid iid fld dom tpc : String,
      compute_profile
        (log_attempt [] uid
          { id := iid, field := fld, domain := dom, topic := tpc,
            difficulty := 1, type := "mcq", keywords := [] } true)
        (fld, dom) =
      some { accuracy := 1, level := 3, n := 1 } := by
  intro uid iid fld dom tpc
  have hrows : keyRows
      (log_attempt [] uid
        { id := iid, field := fld, domain := dom, topic := tpc,
          difficulty := 1, type := "mcq", keywords := [] } true) (fld, dom) =
      [{ user_id := uid, item_id := iid, field_id := fld, domain_id := dom,
         difficulty := 1, correct := 1 }] := by
    simp [log_attempt, keyRows, matchesKey]
  have hne : keyRows
      (log_attempt [] uid
        { id := iid, field := fld, domain := dom, topic := tpc,
          difficulty := 1, type := "mcq", keywords := [] } true) (fld, dom) ≠ [] := by
    rw [hrows]
    simp
  rw [compute_profile_eq_some _ _ hne]
  have hw : weightSum
      (log_attempt [] uid
        { id := iid, field := fld, domain := dom, topic := tpc,
          difficulty := 1, type := "mcq", keywords := [] } true) (fld, dom) = 1 := by
    rw [weightSum, hrows]
    simp [WEIGHTS]
  have hh : hitSum
      (log_attempt [] uid
        { id := iid, field := fld, domain := dom, topic := tpc,
          difficulty := 1, type := "mcq", keywords := [] } true) (fld, dom) = 1 := by
    rw [hitSum, hrows]
    simp [WEIGHTS]
  have hacc : rawAcc
      (log_attempt [] uid
        { id := iid, field := fld, domain := dom, topic := tpc,
          difficulty := 1, type := "mcq", keywords := [] } true) (fld, dom) = 1 := by
    rw [rawAcc_eq_ratio _ _ hne, hw, hh]
    norm_num
  have hr : roundq2 (1:ℚ) = 1 := by
    rw [roundq2_eq_down 1 100 (by norm_num) (by norm_num) (by norm_num)]
    norm_num
  have hl : levelOf (1:ℚ) = 3 := by
    unfold levelOf
    rw [if_neg (by norm_num), if_neg (by norm_num)]
  rw [hacc, hr, hl, hrows]
  rfl

end GpaApp
